import Mathlib

/- Verification development for the rtftp TFTP server (src/tftpd.rs).

   The server's per-request behaviour is embedded shallowly:
   * Unix paths are lists of normalized components, exactly the view Rust's
     `std::path::Components` iterator gives of a path (a leading `.` is kept,
     interior `.` components are dropped, `..` components are kept);
   * filesystem and network effects (canonicalize, current_dir, open, recv,
     send) are oracles collected in an `Env` record, and the handlers return
     the list of observable `Action`s they perform together with a success
     flag, mirroring `Result<String, io::Error>`;
   * the `rtftp` support library (its packet parser, option negotiator and
     option acknowledgement) is not part of src/tftpd.rs; those pieces are
     modelled from the specification and are marked as such in their
     doc comments. -/

namespace Rtftp

/-- A normalized Unix path component, as produced by Rust's
`std::path::Components` iterator: the root directory `/`, a leading `.`,
a `..`, or a normal named component. -/
inductive Component where
  | rootDir   : Component
  | curDir    : Component
  | parentDir : Component
  | normal    : String → Component
  deriving DecidableEq, Repr

/-- `true` unless the component is `.`; used when appending a path in
`pjoin`, because Rust's component normalization drops non-leading `.`
components. -/
def notCurDir : Component → Bool
  | Component.curDir => false
  | _ => true

/-- Rust `Path::join` on normalized component lists: an absolute right-hand
side replaces the whole path, otherwise the components are appended (and the
appended components can no longer contribute a leading `.`). -/
def pjoin (a b : List Component) : List Component :=
  match b with
  | Component.rootDir :: _ => b
  | _ => a ++ b.filter notCurDir

/-- Rust `Path::parent` on normalized component lists: `None` for the empty
path and for the root, otherwise the path with its last component removed. -/
def parentOf (p : List Component) : Option (List Component) :=
  match p with
  | [] => none
  | [Component.rootDir] => none
  | _ => some p.dropLast

/-- Rust `Path::file_name` on normalized component lists: the final component
when it is a normal named component, `None` when the path is empty or ends in
`/`, `.` or `..`. -/
def fileNameOf (p : List Component) : Option String :=
  match p.getLast? with
  | some (Component.normal s) => some s
  | _ => none

/-- Component-wise initial-segment test, the comparison performed by Rust's
`Path::strip_prefix`. -/
def leads : List Component → List Component → Bool
  | [], _ => true
  | _ :: _, [] => false
  | a :: as, b :: bs => if a = b then leads as bs else false

/-- Rust `Path::strip_prefix` on normalized component lists: when `base` is a
component-wise initial segment of `p`, the remaining suffix. -/
def stripRoot (base p : List Component) : Option (List Component) :=
  if leads base p then some (p.drop base.length) else none

/-- The result of `parse_file_mode_options` before any normalization: the
filename from the packet (as a normalized component list), the raw mode
string, and the option list (name, decoded decimal value) in packet order. -/
structure RawReq where
  filename : List Component
  mode     : String
  options  : List (String × Nat)
  deriving DecidableEq, Repr

/-- Failure of the create-exclusive open in `handle_wrq`: the destination
already exists (`io::ErrorKind::AlreadyExists`) or any other error. -/
inductive OpenErr where
  | alreadyExists : OpenErr
  | otherErr      : OpenErr
  deriving DecidableEq, Repr

/-- Failure of the read-only open in `handle_rrq`: the file does not exist
(`io::ErrorKind::NotFound`) or any other error. -/
inductive ReadErr where
  | notFound : ReadErr
  | otherErr : ReadErr
  deriving DecidableEq, Repr

/-- Oracles for the effects a session can perform: path canonicalization and
the current working directory (the canonical service root, which the kernel
maintains symlink-free after the startup `chdir`), the parse result of the
initial request packet (`none` models a parse error propagated by `?`), the
outcomes of the two kinds of file open, file metadata, and the outcomes of
the block transfer (`recv_file` / `send_file`). -/
structure Env where
  canon       : List Component → Option (List Component)
  cwd         : Option (List Component)
  parse       : Option RawReq
  openNewErr  : List Component → Option OpenErr
  openReadErr : List Component → Option ReadErr
  metadataOk  : Bool
  isFile      : List Component → Bool
  fileSize    : List Component → Nat
  recvOk      : Bool
  sendOk      : Bool
  clientData  : List Nat

/-- `Tftpd::file_allowed` (src/tftpd.rs lines 51-79), step for step:
join the client filename onto `.`, take the parent, canonicalize it, take
the file name of the client filename, join it onto the canonical parent,
and strip the current working directory from the front; any failing step
returns `None`. -/
def file_allowed (env : Env) (filename : List Component) :
    Option (List Component) :=
  match parentOf (pjoin [Component.curDir] filename) with
  | none => none
  | some par =>
    match env.canon par with
    | none => none
    | some canonPar =>
      match fileNameOf filename with
      | none => none
      | some base =>
        match env.cwd with
        | none => none
        | some cwd => stripRoot cwd (pjoin canonPar [Component.normal base])

/-- The Path guard exactly as §4.2 of the specification words it: treat the
filename as relative to the service root, canonicalize the parent directory
of the filename but not the final component, append the basename to the
canonical parent, and reject unless the canonical service root is an initial
segment of the result. -/
def path_guard_spec (env : Env) (filename : List Component) :
    Option (List Component) := do
  let par ← parentOf (pjoin [Component.curDir] filename)
  let canonPar ← env.canon par
  let base ← fileNameOf filename
  let root ← env.cwd
  if leads root (canonPar ++ [Component.normal base]) then
    pure ((canonPar ++ [Component.normal base]).drop root.length)
  else none

/-- The canonical absolute form of an accepted request path: canonical
parent plus basename. `file_allowed` accepts exactly when this path starts
with the service root, and then returns the remainder. -/
def canonicalRequestPath (env : Env) (filename : List Component) :
    Option (List Component) :=
  match parentOf (pjoin [Component.curDir] filename) with
  | none => none
  | some par =>
    match env.canon par with
    | none => none
    | some canonPar =>
      match fileNameOf filename with
      | none => none
      | some base => some (canonPar ++ [Component.normal base])

/-- The observable effects of a session, in the order the handlers perform
them.  `openNew`/`openRead` record the argument of the open call itself;
`createFile` records that the create-exclusive open succeeded (and thus
created the file); `recvIntoFile` records `recv_file` writing the client's
data; `ackOptions` records the `ack_options` call with the option list it
echoes and whether the caller is the RRQ handler. -/
inductive Action where
  | setReadTimeout : Nat → Action
  | sendError      : Nat → String → Action
  | openNew        : List Component → Action
  | createFile     : List Component → Action
  | openRead       : List Component → Action
  | ackOptions     : List (String × Nat) → Bool → Action
  | recvIntoFile   : List Component → List Nat → Action
  | sendFileData   : List Component → Action
  deriving DecidableEq, Repr

/-- The two policy flags of `Configuration` that `handle_client` consults. -/
structure Config where
  ro : Bool
  wo : Bool
  deriving DecidableEq, Repr

/-- Lowercase a string character by character (structural recursion, so the
kernel can evaluate it; agrees with ASCII lowercasing on the option names
and modes TFTP uses). -/
def lowerStr (s : String) : String := ⟨s.data.map Char.toLower⟩

/-- Modelled from the spec: `parse_file_mode_options` lives in the rtftp
support library, not in src/tftpd.rs.  Per §3 of the specification the mode
is compared case-insensitively (so the parser hands it over lowercased) and
option names are lowercased; values of numeric options are their decoded
decimal values. -/
def normalizeReq (r : RawReq) : RawReq :=
  { r with
    mode := lowerStr r.mode
    options := r.options.map (fun kv => (lowerStr kv.1, kv.2)) }

/-- Clamp `v` into the interval `[lo, hi]`. -/
def clampVal (lo hi v : Nat) : Nat := max lo (min v hi)

/-- Modelled from the spec: `Tftp::init_tftp_options` lives in the rtftp
support library, not in src/tftpd.rs.  Per §4.3 of the specification the
recognized options are `blksize` (clamped to `[8, 65464]`), `timeout`
(clamped to `[1, 255]`) and `tsize` (kept as sent); unrecognized options —
including `windowsize`, which §9 records the source does not implement —
are dropped silently.  This is the per-entry acceptance; per §4.5 the
socket read timeout is additionally set to the negotiated value when the
client supplied one. -/
def acceptOption (kv : String × Nat) : Option (String × Nat) :=
  if kv.1 = "blksize" then some (kv.1, clampVal 8 65464 kv.2)
  else if kv.1 = "timeout" then some (kv.1, clampVal 1 255 kv.2)
  else if kv.1 = "tsize" then some kv
  else none

/-- Modelled from the spec (see `acceptOption` above): the accepted options
in client order, and the new socket read timeout when one was supplied. -/
def init_tftp_options (opts : List (String × Nat)) :
    List (String × Nat) × Option Nat :=
  (opts.filterMap acceptOption,
   (opts.lookup "timeout").map (clampVal 1 255))

/-- The socket actions `init_tftp_options` performs: one timeout update when
the client supplied a `timeout` option, none otherwise. -/
def timeoutActs : Option Nat → List Action
  | some t => [Action.setReadTimeout t]
  | none => []

/-- The `tsize` overwrite of `handle_rrq` (src/tftpd.rs lines 166-168):
`options.get_mut("tsize")` updates the value of an existing `tsize` entry
to the file size and never inserts one. -/
def updateTsize (opts : List (String × Nat)) (size : Nat) :
    List (String × Nat) :=
  opts.map (fun kv => if kv.1 = "tsize" then (kv.1, size) else kv)

/-- The body of `Tftpd::handle_wrq` (src/tftpd.rs lines 81-125) after
parsing and option initialization: the mode check, the Path guard, the
create-exclusive open with its two error arms, the option acknowledgement
and the block transfer. -/
def wrqBody (env : Env) (opts : List (String × Nat)) (mode : String)
    (filename : List Component) : List Action × Bool :=
  if mode = "octet" then
    match file_allowed env filename with
    | none => ([Action.sendError 2 "Permission denied"], false)
    | some path =>
      match env.openNewErr path with
      | some OpenErr.alreadyExists =>
        ([Action.openNew path, Action.sendError 6 "File already exists"],
         false)
      | some OpenErr.otherErr =>
        ([Action.openNew path, Action.sendError 6 "Permission denied"],
         false)
      | none =>
        if env.recvOk then
          ([Action.openNew path, Action.createFile path,
            Action.ackOptions opts false,
            Action.recvIntoFile path env.clientData], true)
        else
          ([Action.openNew path, Action.createFile path,
            Action.ackOptions opts false,
            Action.sendError 0 "Receiving error"], false)
  else ([Action.sendError 0 "Unsupported mode"], false)

/-- The body of `Tftpd::handle_rrq` (src/tftpd.rs lines 127-177) after
parsing and option initialization: the mode check, the Path guard, the
read-only open with its two error arms, the regular-file check, the `tsize`
overwrite, the option acknowledgement and the block transfer.  A
`file.metadata()` failure (modelled by `metadataOk = false`) makes the
handler return the error without sending a packet. -/
def rrqBody (env : Env) (opts : List (String × Nat)) (mode : String)
    (filename : List Component) : List Action × Bool :=
  if mode = "octet" then
    match file_allowed env filename with
    | none => ([Action.sendError 2 "Permission denied"], false)
    | some path =>
      match env.openReadErr path with
      | some ReadErr.notFound =>
        ([Action.openRead path, Action.sendError 1 "File not found"], false)
      | some ReadErr.otherErr =>
        ([Action.openRead path, Action.sendError 2 "Permission denied"],
         false)
      | none =>
        if env.metadataOk then
          if env.isFile path then
            if env.sendOk then
              ([Action.openRead path,
                Action.ackOptions (updateTsize opts (env.fileSize path)) true,
                Action.sendFileData path], true)
            else
              ([Action.openRead path,
                Action.ackOptions (updateTsize opts (env.fileSize path)) true],
               false)
          else
            ([Action.openRead path, Action.sendError 1 "File not found"],
             false)
        else ([Action.openRead path], false)
  else ([Action.sendError 0 "Unsupported mode"], false)

/-- `Tftpd::handle_wrq`: parse the request (a parse failure propagates the
error with no action), normalize it, initialize the options (which may set
the socket read timeout), then run the body. -/
def handle_wrq (env : Env) : List Action × Bool :=
  match env.parse with
  | none => ([], false)
  | some raw =>
    ((timeoutActs (init_tftp_options (normalizeReq raw).options).2 ++
      (wrqBody env (init_tftp_options (normalizeReq raw).options).1
        (normalizeReq raw).mode (normalizeReq raw).filename).1),
     (wrqBody env (init_tftp_options (normalizeReq raw).options).1
        (normalizeReq raw).mode (normalizeReq raw).filename).2)

/-- `Tftpd::handle_rrq`: parse the request, normalize it, initialize the
options, then run the body. -/
def handle_rrq (env : Env) : List Action × Bool :=
  match env.parse with
  | none => ([], false)
  | some raw =>
    ((timeoutActs (init_tftp_options (normalizeReq raw).options).2 ++
      (rrqBody env (init_tftp_options (normalizeReq raw).options).1
        (normalizeReq raw).mode (normalizeReq raw).filename).1),
     (rrqBody env (init_tftp_options (normalizeReq raw).options).1
        (normalizeReq raw).mode (normalizeReq raw).filename).2)

/-- `Tftpd::handle_client` (src/tftpd.rs lines 179-207).  The ephemeral
socket is bound, its read timeout set to 5 seconds and connected to the
client; then the opcode is read as `u16::from_be_bytes([buf[0], buf[1]])`
**without any length check**: on a datagram shorter than 2 bytes the
indexing panics the worker thread, modelled by `none`.  Opcode 1 is RRQ,
2 is WRQ, 5 is ERROR (per `rtftp::Opcodes`). -/
def handle_client (env : Env) (conf : Config) (buf : List Nat) :
    Option (List Action × Bool) :=
  match buf with
  | b0 :: b1 :: _ =>
    some
      (if b0 * 256 + b1 = 1 then
        if conf.wo then
          ([Action.setReadTimeout 5,
            Action.sendError 4 "reading not allowed"], false)
        else
          (Action.setReadTimeout 5 :: (handle_rrq env).1, (handle_rrq env).2)
      else if b0 * 256 + b1 = 2 then
        if conf.ro then
          ([Action.setReadTimeout 5,
            Action.sendError 4 "writing not allowed"], false)
        else
          (Action.setReadTimeout 5 :: (handle_wrq env).1, (handle_wrq env).2)
      else if b0 * 256 + b1 = 5 then ([Action.setReadTimeout 5], true)
      else
        ([Action.setReadTimeout 5,
          Action.sendError 4 "Unexpected opcode"], false))
  | _ => none

/-- Filesystem contents: each path maps to `none` (absent) or the byte list
stored there. -/
def FsState : Type := List Component → Option (List Nat)

/-- How a single action changes the filesystem: a successful
create-exclusive open creates an empty file, `recv_file` stores the received
bytes; nothing else writes. -/
def applyAct (a : Action) (fs : FsState) : FsState :=
  match a with
  | Action.createFile p => fun q => if q = p then some [] else fs q
  | Action.recvIntoFile p data => fun q => if q = p then some data else fs q
  | _ => fs

/-- The filesystem after a trace of actions. -/
def applyTrace (tr : List Action) (fs : FsState) : FsState :=
  tr.foldl (fun s a => applyAct a s) fs

/-- The read timeout (in seconds) an action sets, if any. -/
def timeoutOf : Action → Option Nat
  | Action.setReadTimeout n => some n
  | _ => none

/-- The read timeout the ephemeral socket is left with after a trace: the
last `setReadTimeout` in the trace. -/
def finalReadTimeout (tr : List Action) : Option Nat :=
  (tr.filterMap timeoutOf).getLast?

/-- The canonical service root `/srv` used by the concrete environments. -/
def srvRoot : List Component := [Component.rootDir, Component.normal "srv"]

/-- A concrete environment: service root `/srv`, a canonicalization oracle
that resolves `.` to `/srv` and fixes `/srv`, and all effects succeeding. -/
def baseEnv : Env where
  canon := fun p =>
    if p = [Component.curDir] then some srvRoot
    else if p = srvRoot then some srvRoot
    else none
  cwd := some srvRoot
  parse := none
  openNewErr := fun _ => none
  openReadErr := fun _ => none
  metadataOk := true
  isFile := fun _ => true
  fileSize := fun _ => 0
  recvOk := true
  sendOk := true
  clientData := []

/-- A concrete environment asking for `f` in mode `m` with options `o`. -/
def reqEnv (f : List Component) (m : String) (o : List (String × Nat)) :
    Env :=
  { baseEnv with parse := some ⟨f, m, o⟩ }

/-- The flags that decide the three startup steps of `Tftpd::start`:
binding the listening socket, dropping privileges, and changing the
working directory to the service root. -/
structure StartEnv where
  bindOk      : Bool
  dropPrivsOk : Bool
  chdirOk     : Bool
  deriving DecidableEq, Repr

/-- `Tftpd::start` (src/tftpd.rs lines 235-278) up to the accept loop:
on a bind, privilege-drop or chdir failure it prints the error to stderr
and plainly `return`s.  The result is the list of stderr messages and
whether the accept loop was reached. -/
def start (e : StartEnv) : List String × Bool :=
  if e.bindOk = false then (["Binding a socket failed"], false)
  else if e.dropPrivsOk = false then (["Dropping privileges failed"], false)
  else if e.chdirOk = false then (["Changing directory failed"], false)
  else ([], true)

/-- `main` (src/tftpd.rs lines 367-375): builds the configuration, calls
`start`, and falls off the end.  A Rust `main` returning `()` exits the
process with status 0, whatever `start` did — there is no `process::exit`
or panic on the startup-failure paths. -/
def mainExitStatus (e : StartEnv) : Nat :=
  let _ := start e
  0

/-- The path argument of a file-open call, when the action is one. -/
def opensOf : Action → Option (List Component)
  | Action.openNew p => some p
  | Action.openRead p => some p
  | _ => none

/-- The C3 scenario: a well-formed WRQ for `f.bin` whose create-exclusive
open fails with an error other than `AlreadyExists` (for example,
permission denied). -/
def envC3 : Env :=
  { reqEnv [Component.normal "f.bin"] "octet" [] with
    openNewErr := fun _ => some OpenErr.otherErr }

/-- The actions of a session as dispatched by `handle_client`; a panicking
session (datagram shorter than 2 bytes) contributes no actions. -/
def clientTrace (env : Env) (conf : Config) (buf : List Nat) : List Action :=
  (handle_client env conf buf).elim [] Prod.fst

/-- A plain WRQ for `a.txt`. -/
def envWrqPlain : Env := reqEnv [Component.normal "a.txt"] "octet" []

/-- An RRQ for `a.txt` negotiating `timeout 3`. -/
def envTimeout3 : Env :=
  reqEnv [Component.normal "a.txt"] "octet" [("timeout", 3)]

/-- A WRQ whose destination `exists.bin` already exists. -/
def envExists : Env :=
  { reqEnv [Component.normal "exists.bin"] "octet" [] with
    openNewErr := fun _ => some OpenErr.alreadyExists }

/-- An RRQ in upper-case mode `OCTET`. -/
def envUpperMode : Env := reqEnv [Component.normal "UP.txt"] "OCTET" []

/-- A WRQ in the unsupported mode `mail`. -/
def envMailMode : Env := reqEnv [Component.normal "m.bin"] "mail" []

/-- A request whose filename is `..`. -/
def envDotDot : Env := reqEnv [Component.parentDir] "octet" []

/-- An RRQ for `a.txt` carrying a client `tsize 0` option, the file being
7 bytes long. -/
def envTsize : Env :=
  { reqEnv [Component.normal "a.txt"] "octet" [("tsize", 0)] with
    fileSize := fun _ => 7 }

/- ------------------------------------------------------------------ -/
/- Helper lemmas.                                                      -/
/- ------------------------------------------------------------------ -/

theorem leads_iff_append (a b : List Component) :
    leads a b = true ↔ ∃ t, b = a ++ t := by
  induction a generalizing b with
  | nil => simp [leads]
  | cons x xs ih =>
    cases b with
    | nil => simp [leads]
    | cons y ys =>
      simp only [leads]
      split
      · next h =>
        subst h
        rw [ih]
        exact exists_congr fun t => by simp
      · next h =>
        constructor
        · intro hc
          exact absurd hc (by simp)
        · rintro ⟨t, ht⟩
          injection ht with h1 h2
          exact (h h1.symm).elim

theorem stripRoot_eq_some {base p q : List Component}
    (h : stripRoot base p = some q) : p = base ++ q := by
  unfold stripRoot at h
  split at h
  · next hl =>
    obtain ⟨t, rfl⟩ := (leads_iff_append base p).mp hl
    simp at h
    subst h
    simp
  · exact absurd h (by simp)

theorem pjoin_single_normal (a : List Component) (s : String) :
    pjoin a [Component.normal s] = a ++ [Component.normal s] := rfl

theorem file_allowed_some {env : Env} {filename p : List Component}
    (h : file_allowed env filename = some p) :
    ∃ cwd full, env.cwd = some cwd ∧
      canonicalRequestPath env filename = some full ∧
      full = cwd ++ p := by
  cases hp : parentOf (pjoin [Component.curDir] filename) with
  | none => simp [file_allowed, hp] at h
  | some par =>
    cases hc : env.canon par with
    | none => simp [file_allowed, hp, hc] at h
    | some canonPar =>
      cases hf : fileNameOf filename with
      | none => simp [file_allowed, hp, hc, hf] at h
      | some base =>
        cases hw : env.cwd with
        | none => simp [file_allowed, hp, hc, hf, hw] at h
        | some cwd =>
          simp only [file_allowed, hp, hc, hf, hw, pjoin_single_normal] at h
          refine ⟨cwd, canonPar ++ [Component.normal base], rfl, ?_, ?_⟩
          · simp [canonicalRequestPath, hp, hc, hf]
          · exact stripRoot_eq_some h

theorem file_allowed_eq_path_guard_spec (env : Env)
    (filename : List Component) :
    file_allowed env filename = path_guard_spec env filename := by
  cases hp : parentOf (pjoin [Component.curDir] filename) with
  | none => simp [file_allowed, path_guard_spec, hp]
  | some par =>
    cases hc : env.canon par with
    | none => simp [file_allowed, path_guard_spec, hp, hc]
    | some canonPar =>
      cases hf : fileNameOf filename with
      | none => simp [file_allowed, path_guard_spec, hp, hc, hf]
      | some base =>
        cases hw : env.cwd with
        | none => simp [file_allowed, path_guard_spec, hp, hc, hf, hw]
        | some cwd =>
          simp [file_allowed, path_guard_spec, hp, hc, hf, hw,
                pjoin_single_normal, stripRoot]

/-- If the client filename has no usable final component (it is empty, `.`,
`..`, `/`, or ends in `..`), the guard rejects it, whatever the filesystem
looks like. -/
theorem file_allowed_none_of_no_fileName (env : Env)
    {filename : List Component} (h : fileNameOf filename = none) :
    file_allowed env filename = none := by
  cases hp : parentOf (pjoin [Component.curDir] filename) with
  | none => simp [file_allowed, hp]
  | some par =>
    cases hc : env.canon par with
    | none => simp [file_allowed, hp, hc]
    | some canonPar => simp [file_allowed, hp, hc, h]

theorem wrqBody_no_timeout (env : Env) (opts : List (String × Nat))
    (mode : String) (f : List Component) :
    List.filterMap timeoutOf (wrqBody env opts mode f).1 = [] := by
  unfold wrqBody
  split
  · split
    · rfl
    · split
      · rfl
      · rfl
      · split <;> rfl
  · rfl

theorem rrqBody_no_timeout (env : Env) (opts : List (String × Nat))
    (mode : String) (f : List Component) :
    List.filterMap timeoutOf (rrqBody env opts mode f).1 = [] := by
  unfold rrqBody
  split
  · split
    · rfl
    · split
      · rfl
      · rfl
      · split
        · split
          · split <;> rfl
          · rfl
        · rfl
  · rfl

/-- Any file-open action performed by the WRQ body carries exactly the path
accepted by the Path guard. -/
theorem wrqBody_opens {env : Env} {opts : List (String × Nat)}
    {mode : String} {f p : List Component} {a : Action}
    (ha : a ∈ (wrqBody env opts mode f).1) (hp : opensOf a = some p) :
    file_allowed env f = some p := by
  unfold wrqBody at ha
  split at ha
  · split at ha
    · simp at ha
      subst ha
      simp [opensOf] at hp
    · next path heq =>
      split at ha
      · simp at ha
        rcases ha with rfl | rfl
        · simp [opensOf] at hp
          subst hp
          exact heq
        · simp [opensOf] at hp
      · simp at ha
        rcases ha with rfl | rfl
        · simp [opensOf] at hp
          subst hp
          exact heq
        · simp [opensOf] at hp
      · split at ha
        all_goals
          simp at ha
          rcases ha with rfl | rfl | rfl | rfl
          all_goals simp [opensOf] at hp
          all_goals
            subst hp
            exact heq
  · simp at ha
    subst ha
    simp [opensOf] at hp

/-- Any file-open action performed by the RRQ body carries exactly the path
accepted by the Path guard. -/
theorem rrqBody_opens {env : Env} {opts : List (String × Nat)}
    {mode : String} {f p : List Component} {a : Action}
    (ha : a ∈ (rrqBody env opts mode f).1) (hp : opensOf a = some p) :
    file_allowed env f = some p := by
  unfold rrqBody at ha
  split at ha
  · split at ha
    · simp at ha
      subst ha
      simp [opensOf] at hp
    · next path heq =>
      split at ha
      · simp at ha
        rcases ha with rfl | rfl
        · simp [opensOf] at hp
          subst hp
          exact heq
        · simp [opensOf] at hp
      · simp at ha
        rcases ha with rfl | rfl
        · simp [opensOf] at hp
          subst hp
          exact heq
        · simp [opensOf] at hp
      · split at ha
        · split at ha
          · split at ha
            · simp at ha
              rcases ha with rfl | rfl | rfl
              · simp [opensOf] at hp
                subst hp
                exact heq
              · simp [opensOf] at hp
              · simp [opensOf] at hp
            · simp at ha
              rcases ha with rfl | rfl
              · simp [opensOf] at hp
                subst hp
                exact heq
              · simp [opensOf] at hp
          · simp at ha
            rcases ha with rfl | rfl
            · simp [opensOf] at hp
              subst hp
              exact heq
            · simp [opensOf] at hp
        · simp at ha
          subst ha
          simp [opensOf] at hp
          subst hp
          exact heq
  · simp at ha
    subst ha
    simp [opensOf] at hp

/-- A trace whose actions are all non-mutating leaves the filesystem
unchanged. -/
theorem applyTrace_eq_self {tr : List Action}
    (h : ∀ a ∈ tr, ∀ s : FsState, applyAct a s = s) (fs : FsState) :
    applyTrace tr fs = fs := by
  induction tr generalizing fs with
  | nil => rfl
  | cons a rest ih =>
    show applyTrace rest (applyAct a fs) = fs
    rw [h a (by simp) fs]
    exact ih (fun b hb s => h b (by simp [hb]) s) fs

theorem applyAct_setReadTimeout (n : Nat) (s : FsState) :
    applyAct (Action.setReadTimeout n) s = s := rfl

theorem applyAct_sendError (c : Nat) (m : String) (s : FsState) :
    applyAct (Action.sendError c m) s = s := rfl

theorem applyAct_openNew (p : List Component) (s : FsState) :
    applyAct (Action.openNew p) s = s := rfl

theorem applyAct_openRead (p : List Component) (s : FsState) :
    applyAct (Action.openRead p) s = s := rfl

theorem timeoutActs_no_write {t : Option Nat} {a : Action}
    (ha : a ∈ timeoutActs t) (s : FsState) : applyAct a s = s := by
  cases t with
  | none => simp [timeoutActs] at ha
  | some v =>
    simp [timeoutActs] at ha
    subst ha
    rfl

/-- `init_tftp_options` keeps the client's `tsize` value: looking up
`tsize` in the accepted options gives exactly the client's value. -/
theorem lookup_tsize_init (opts : List (String × Nat)) :
    List.lookup "tsize" (init_tftp_options opts).1 =
      List.lookup "tsize" opts := by
  show List.lookup "tsize" (List.filterMap acceptOption opts) = _
  induction opts with
  | nil => rfl
  | cons kv rest ih =>
    obtain ⟨k, v⟩ := kv
    rw [List.filterMap_cons]
    by_cases hb : k = "blksize"
    · subst hb
      rw [show acceptOption ("blksize", v) =
          some ("blksize", clampVal 8 65464 v) from rfl]
      simp [List.lookup, show (("blksize" : String) == "tsize") = false from
        by decide, ih]
    · by_cases ht : k = "timeout"
      · subst ht
        rw [show acceptOption ("timeout", v) =
            some ("timeout", clampVal 1 255 v) from rfl]
        simp [List.lookup, show (("timeout" : String) == "tsize") = false from
          by decide, ih]
      · by_cases hz : k = "tsize"
        · subst hz
          rw [show acceptOption ("tsize", v) = some ("tsize", v) from rfl]
          simp [List.lookup, show (("tsize" : String) == "tsize") = true from
            by decide]
        · rw [show acceptOption (k, v) = none from
            by simp [acceptOption, hb, ht, hz]]
          have hkz : (("tsize" : String) == k) = false :=
            beq_eq_false_iff_ne.mpr (Ne.symm hz)
          simp [List.lookup, hkz, ih]

/-- Looking up `tsize` after the overwrite: present iff it was present, and
then carrying the file size. -/
theorem lookup_tsize_updateTsize (opts : List (String × Nat)) (size : Nat) :
    List.lookup "tsize" (updateTsize opts size) =
      (List.lookup "tsize" opts).map (fun _ => size) := by
  induction opts with
  | nil => rfl
  | cons kv rest ih =>
    obtain ⟨k, v⟩ := kv
    rw [show updateTsize ((k, v) :: rest) size =
        (if k = "tsize" then (k, size) else (k, v)) :: updateTsize rest size
        from rfl]
    by_cases hz : k = "tsize"
    · subst hz
      rw [if_pos rfl]
      simp [List.lookup, show (("tsize" : String) == "tsize") = true from
        by decide]
    · rw [if_neg hz]
      have hkz : (("tsize" : String) == k) = false :=
        beq_eq_false_iff_ne.mpr (Ne.symm hz)
      simp [List.lookup, hkz, ih]

theorem handle_wrq_eq (env : Env) (raw : RawReq)
    (hparse : env.parse = some raw) :
    handle_wrq env =
      (timeoutActs (init_tftp_options (normalizeReq raw).options).2 ++
        (wrqBody env (init_tftp_options (normalizeReq raw).options).1
          (normalizeReq raw).mode (normalizeReq raw).filename).1,
       (wrqBody env (init_tftp_options (normalizeReq raw).options).1
          (normalizeReq raw).mode (normalizeReq raw).filename).2) := by
  unfold handle_wrq
  rw [hparse]

theorem handle_rrq_eq (env : Env) (raw : RawReq)
    (hparse : env.parse = some raw) :
    handle_rrq env =
      (timeoutActs (init_tftp_options (normalizeReq raw).options).2 ++
        (rrqBody env (init_tftp_options (normalizeReq raw).options).1
          (normalizeReq raw).mode (normalizeReq raw).filename).1,
       (rrqBody env (init_tftp_options (normalizeReq raw).options).1
          (normalizeReq raw).mode (normalizeReq raw).filename).2) := by
  unfold handle_rrq
  rw [hparse]

theorem mem_timeoutActs {t : Option Nat} {a : Action}
    (ha : a ∈ timeoutActs t) : ∃ n, a = Action.setReadTimeout n := by
  cases t with
  | none => simp [timeoutActs] at ha
  | some v =>
    simp [timeoutActs] at ha
    exact ⟨v, ha⟩

theorem opensOf_timeoutActs {t : Option Nat} {a : Action}
    (ha : a ∈ timeoutActs t) : opensOf a = none := by
  obtain ⟨n, rfl⟩ := mem_timeoutActs ha
  rfl

/-- An unsupported (non-`octet`) mode short-circuits the WRQ body into
ERROR(0, "Unsupported mode"). -/
theorem wrqBody_mode_bad {env : Env} {opts : List (String × Nat)}
    {mode : String} {f : List Component} (h : mode ≠ "octet") :
    wrqBody env opts mode f =
      ([Action.sendError 0 "Unsupported mode"], false) := by
  unfold wrqBody
  rw [if_neg h]

/-- An unsupported (non-`octet`) mode short-circuits the RRQ body into
ERROR(0, "Unsupported mode"). -/
theorem rrqBody_mode_bad {env : Env} {opts : List (String × Nat)}
    {mode : String} {f : List Component} (h : mode ≠ "octet") :
    rrqBody env opts mode f =
      ([Action.sendError 0 "Unsupported mode"], false) := by
  unfold rrqBody
  rw [if_neg h]

/-- A Path-guard rejection short-circuits the WRQ body into
ERROR(2, "Permission denied"). -/
theorem wrqBody_guard_none {env : Env} {opts : List (String × Nat)}
    {f : List Component} (h : file_allowed env f = none) :
    wrqBody env opts "octet" f =
      ([Action.sendError 2 "Permission denied"], false) := by
  unfold wrqBody
  rw [if_pos rfl, h]

/-- A Path-guard rejection short-circuits the RRQ body into
ERROR(2, "Permission denied"). -/
theorem rrqBody_guard_none {env : Env} {opts : List (String × Nat)}
    {f : List Component} (h : file_allowed env f = none) :
    rrqBody env opts "octet" f =
      ([Action.sendError 2 "Permission denied"], false) := by
  unfold rrqBody
  rw [if_pos rfl, h]

theorem handle_wrq_opens {env : Env} {a : Action} {p : List Component}
    (ha : a ∈ (handle_wrq env).1) (hopen : opensOf a = some p) :
    ∃ raw, env.parse = some raw ∧
      file_allowed env (normalizeReq raw).filename = some p := by
  cases hparse : env.parse with
  | none =>
    unfold handle_wrq at ha
    rw [hparse] at ha
    simp at ha
  | some raw =>
    rw [handle_wrq_eq env raw hparse] at ha
    rcases List.mem_append.mp ha with h1 | h2
    · rw [opensOf_timeoutActs h1] at hopen
      exact absurd hopen (by simp)
    · exact ⟨raw, rfl, wrqBody_opens h2 hopen⟩

theorem handle_rrq_opens {env : Env} {a : Action} {p : List Component}
    (ha : a ∈ (handle_rrq env).1) (hopen : opensOf a = some p) :
    ∃ raw, env.parse = some raw ∧
      file_allowed env (normalizeReq raw).filename = some p := by
  cases hparse : env.parse with
  | none =>
    unfold handle_rrq at ha
    rw [hparse] at ha
    simp at ha
  | some raw =>
    rw [handle_rrq_eq env raw hparse] at ha
    rcases List.mem_append.mp ha with h1 | h2
    · rw [opensOf_timeoutActs h1] at hopen
      exact absurd hopen (by simp)
    · exact ⟨raw, rfl, rrqBody_opens h2 hopen⟩

theorem finalReadTimeout_cons5_wrq (env : Env) (raw : RawReq)
    (hparse : env.parse = some raw) :
    finalReadTimeout (Action.setReadTimeout 5 :: (handle_wrq env).1) =
      some ((List.lookup "timeout" (normalizeReq raw).options).elim 5
        (clampVal 1 255)) := by
  rw [handle_wrq_eq env raw hparse]
  unfold finalReadTimeout
  rw [List.filterMap_cons]
  rw [show timeoutOf (Action.setReadTimeout 5) = some 5 from rfl]
  rw [List.filterMap_append, wrqBody_no_timeout, List.append_nil]
  rw [show (init_tftp_options (normalizeReq raw).options).2 =
      (List.lookup "timeout" (normalizeReq raw).options).map (clampVal 1 255)
      from rfl]
  cases List.lookup "timeout" (normalizeReq raw).options with
  | none => rfl
  | some v => rfl

theorem finalReadTimeout_cons5_rrq (env : Env) (raw : RawReq)
    (hparse : env.parse = some raw) :
    finalReadTimeout (Action.setReadTimeout 5 :: (handle_rrq env).1) =
      some ((List.lookup "timeout" (normalizeReq raw).options).elim 5
        (clampVal 1 255)) := by
  rw [handle_rrq_eq env raw hparse]
  unfold finalReadTimeout
  rw [List.filterMap_cons]
  rw [show timeoutOf (Action.setReadTimeout 5) = some 5 from rfl]
  rw [List.filterMap_append, rrqBody_no_timeout, List.append_nil]
  rw [show (init_tftp_options (normalizeReq raw).options).2 =
      (List.lookup "timeout" (normalizeReq raw).options).map (clampVal 1 255)
      from rfl]
  cases List.lookup "timeout" (normalizeReq raw).options with
  | none => rfl
  | some v => rfl

/-- In octet mode the WRQ body never sends ERROR(0, "Unsupported mode"). -/
theorem wrqBody_no_unsupported {env : Env} {opts : List (String × Nat)}
    {f : List Component}
    (h : Action.sendError 0 "Unsupported mode" ∈
      (wrqBody env opts "octet" f).1) : False := by
  unfold wrqBody at h
  rw [if_pos rfl] at h
  split at h
  · simp at h
  · split at h
    · simp at h
    · simp at h
    · split at h <;> simp at h

/-- In octet mode the RRQ body never sends ERROR(0, "Unsupported mode"). -/
theorem rrqBody_no_unsupported {env : Env} {opts : List (String × Nat)}
    {f : List Component}
    (h : Action.sendError 0 "Unsupported mode" ∈
      (rrqBody env opts "octet" f).1) : False := by
  unfold rrqBody at h
  rw [if_pos rfl] at h
  split at h
  · simp at h
  · split at h
    · simp at h
    · simp at h
    · split at h
      · split at h
        · split at h <;> simp at h
        · simp at h
      · simp at h

theorem clientTrace_cons (env : Env) (conf : Config) (b0 b1 : Nat)
    (rest : List Nat) :
    clientTrace env conf (b0 :: b1 :: rest) =
      if b0 * 256 + b1 = 1 then
        (if conf.wo then
          [Action.setReadTimeout 5, Action.sendError 4 "reading not allowed"]
         else Action.setReadTimeout 5 :: (handle_rrq env).1)
      else if b0 * 256 + b1 = 2 then
        (if conf.ro then
          [Action.setReadTimeout 5, Action.sendError 4 "writing not allowed"]
         else Action.setReadTimeout 5 :: (handle_wrq env).1)
      else if b0 * 256 + b1 = 5 then [Action.setReadTimeout 5]
      else
        [Action.setReadTimeout 5, Action.sendError 4 "Unexpected opcode"] := by
  simp only [clientTrace, handle_client, Option.elim, apply_ite Prod.fst]

/- ------------------------------------------------------------------ -/
/- Claim theorems.                                                     -/
/- ------------------------------------------------------------------ -/

/-- C1: for every RRQ or WRQ session that opens a file on disk, the path
passed to the open call is exactly the path returned by the Path guard
`file_allowed` (never the raw client-supplied filename), and behind every
accepted path the canonicalized request path begins with the service root:
it is the root followed by the guard's result. -/
theorem C1_open_path_guarded (env : Env) (conf : Config) (buf : List Nat)
    (a : Action) (p : List Component)
    (ha : a ∈ clientTrace env conf buf) (hopen : opensOf a = some p) :
    ∃ raw, env.parse = some raw ∧
      file_allowed env (normalizeReq raw).filename = some p ∧
      ∃ cwd full, env.cwd = some cwd ∧
        canonicalRequestPath env (normalizeReq raw).filename = some full ∧
        full = cwd ++ p ∧ leads cwd full = true := by
  have assemble :
      (∃ raw, env.parse = some raw ∧
        file_allowed env (normalizeReq raw).filename = some p) →
      ∃ raw, env.parse = some raw ∧
        file_allowed env (normalizeReq raw).filename = some p ∧
        ∃ cwd full, env.cwd = some cwd ∧
          canonicalRequestPath env (normalizeReq raw).filename = some full ∧
          full = cwd ++ p ∧ leads cwd full = true := by
    rintro ⟨raw, hparse, hfa⟩
    obtain ⟨cwd, full, hcwd, hcrp, hfull⟩ := file_allowed_some hfa
    exact ⟨raw, hparse, hfa, cwd, full, hcwd, hcrp, hfull,
      (leads_iff_append cwd full).mpr ⟨p, hfull⟩⟩
  match buf with
  | [] => simp [clientTrace, handle_client] at ha
  | [b0] => simp [clientTrace, handle_client] at ha
  | b0 :: b1 :: rest =>
    rw [clientTrace_cons] at ha
    split at ha
    · split at ha
      · simp at ha
        rcases ha with rfl | rfl <;> simp [opensOf] at hopen
      · rcases List.mem_cons.mp ha with rfl | hmem
        · simp [opensOf] at hopen
        · exact assemble (handle_rrq_opens hmem hopen)
    · split at ha
      · split at ha
        · simp at ha
          rcases ha with rfl | rfl <;> simp [opensOf] at hopen
        · rcases List.mem_cons.mp ha with rfl | hmem
          · simp [opensOf] at hopen
          · exact assemble (handle_wrq_opens hmem hopen)
      · split at ha
        · simp at ha
          subst ha
          simp [opensOf] at hopen
        · simp at ha
          rcases ha with rfl | rfl <;> simp [opensOf] at hopen

/-- C1 witness: in a WRQ session for `a.txt` under service root `/srv`, the
create-exclusive open call receives exactly the guard's result `a.txt`,
whose canonical request path `/srv/a.txt` begins with the service root. -/
theorem C1_open_path_guarded_witness :
    ∃ raw, envWrqPlain.parse = some raw ∧
      file_allowed envWrqPlain (normalizeReq raw).filename =
        some [Component.normal "a.txt"] ∧
      ∃ cwd full, envWrqPlain.cwd = some cwd ∧
        canonicalRequestPath envWrqPlain (normalizeReq raw).filename =
          some full ∧
        full = cwd ++ [Component.normal "a.txt"] ∧
        leads cwd full = true :=
  C1_open_path_guarded envWrqPlain ⟨false, false⟩ [0, 2]
    (Action.openNew [Component.normal "a.txt"]) [Component.normal "a.txt"]
    (by decide) rfl

/-- C2: the Path guard computes exactly what §4.2 of the specification
prescribes (relative interpretation, parent canonicalization without the
final component, basename appended, service-root initial-segment check),
and any guard failure on an octet-mode request is rejected with
ERROR(2, "Permission denied") by both the WRQ and the RRQ handler. -/
theorem C2_guard_matches_spec (env : Env) :
    (∀ f, file_allowed env f = path_guard_spec env f) ∧
    (∀ raw, env.parse = some raw → (normalizeReq raw).mode = "octet" →
      file_allowed env (normalizeReq raw).filename = none →
      (Action.sendError 2 "Permission denied" ∈ (handle_wrq env).1 ∧
       (handle_wrq env).2 = false ∧
       Action.sendError 2 "Permission denied" ∈ (handle_rrq env).1 ∧
       (handle_rrq env).2 = false)) := by
  refine ⟨file_allowed_eq_path_guard_spec env, ?_⟩
  intro raw hparse hmode hfa
  rw [handle_wrq_eq env raw hparse, handle_rrq_eq env raw hparse, hmode,
      wrqBody_guard_none hfa, rrqBody_guard_none hfa]
  refine ⟨List.mem_append_right _ (by simp), rfl,
          List.mem_append_right _ (by simp), rfl⟩

/-- C2 witness: the request `..` is rejected by the guard exactly as the
spec-side guard rejects it, and the WRQ handler answers
ERROR(2, "Permission denied"). -/
theorem C2_guard_matches_spec_witness :
    file_allowed envDotDot [Component.parentDir] =
      path_guard_spec envDotDot [Component.parentDir] ∧
    Action.sendError 2 "Permission denied" ∈ (handle_wrq envDotDot).1 := by
  have h := C2_guard_matches_spec envDotDot
  exact ⟨h.1 [Component.parentDir],
    (h.2 ⟨[Component.parentDir], "octet", []⟩ rfl rfl (by decide)).1⟩

/-- C3 (code-bug evidence): a WRQ whose create-exclusive open fails with an
error other than `AlreadyExists` (for example permission denied) is
answered with an ERROR packet carrying code 6 and the message
"Permission denied" — not code 2 as the specification prescribes
(src/tftpd.rs line 111). -/
theorem C3_wrq_open_error_code6 :
    handle_wrq envC3 =
      ([Action.openNew [Component.normal "f.bin"],
        Action.sendError 6 "Permission denied"], false) := by
  rfl

/-- C4 (code-bug evidence): `handle_client` extracts the opcode as
`u16::from_be_bytes([buf[0], buf[1]])` without any length check, so an
initial datagram of length 0 or 1 panics the worker thread (modelled by
`none`): the packet is not rejected as malformed and no ERROR(4) reaches
the client.  Datagrams of length at least 2 are dispatched normally. -/
theorem C4_short_datagram_panics :
    handle_client baseEnv ⟨false, false⟩ [] = none ∧
    handle_client baseEnv ⟨false, false⟩ [0] = none ∧
    ∀ b0 b1 : Nat, ∀ rest : List Nat,
      (handle_client baseEnv ⟨false, false⟩ (b0 :: b1 :: rest)).isSome := by
  refine ⟨rfl, rfl, ?_⟩
  intro b0 b1 rest
  rfl

/-- C5 counterexample: when binding the listening socket fails, the accept
loop is never reached, yet the process exits with status 0 — refuting the
claim that startup failures exit with a nonzero status (`start` merely
prints and returns, and `main` falls off the end). -/
theorem C5_counterexample_exit_zero :
    (start ⟨false, true, true⟩).2 = false ∧
    mainExitStatus ⟨false, true, true⟩ = 0 :=
  ⟨rfl, rfl⟩

/-- C5 (amended): if startup fails at binding the socket, dropping
privileges, or changing directory to the service root, the process logs an
error, never reaches the accept loop, and exits with status 0 (not
nonzero). -/
theorem C5_startup_failure_exits_zero (e : StartEnv)
    (h : e.bindOk = false ∨ e.dropPrivsOk = false ∨ e.chdirOk = false) :
    (start e).2 = false ∧ (start e).1 ≠ [] ∧ mainExitStatus e = 0 := by
  obtain ⟨b, d, c⟩ := e
  cases b <;> cases d <;> cases c <;>
    simp_all [start, mainExitStatus]

/-- C5 witness: a failed privilege drop never reaches the accept loop and
exits with status 0. -/
theorem C5_startup_failure_exits_zero_witness :
    (start ⟨true, false, true⟩).2 = false ∧
    (start ⟨true, false, true⟩).1 ≠ [] ∧
    mainExitStatus ⟨true, false, true⟩ = 0 :=
  C5_startup_failure_exits_zero ⟨true, false, true⟩ (Or.inr (Or.inl rfl))

/-- C6: for every RRQ or WRQ session, the ephemeral socket's read timeout
ends at the negotiated `timeout` value (clamped to `[1, 255]`) when the
client supplied a `timeout` option, and at the default of 5 seconds
otherwise.  (The option negotiator is modelled from the specification,
`init_tftp_options` not being part of src/tftpd.rs.) -/
theorem C6_read_timeout (env : Env) (conf : Config) (b0 b1 : Nat)
    (rest : List Nat) (raw : RawReq)
    (hparse : env.parse = some raw)
    (hop : (b0 * 256 + b1 = 1 ∧ conf.wo = false) ∨
           (b0 * 256 + b1 = 2 ∧ conf.ro = false)) :
    finalReadTimeout (clientTrace env conf (b0 :: b1 :: rest)) =
      some ((List.lookup "timeout" (normalizeReq raw).options).elim 5
        (clampVal 1 255)) := by
  rw [clientTrace_cons]
  rcases hop with ⟨h1, hwo⟩ | ⟨h2, hro⟩
  · rw [if_pos h1, if_neg (by simp [hwo])]
    exact finalReadTimeout_cons5_rrq env raw hparse
  · rw [if_neg (by omega), if_pos h2, if_neg (by simp [hro])]
    exact finalReadTimeout_cons5_wrq env raw hparse

/-- C6 witness: an RRQ negotiating `timeout 3` leaves the socket read
timeout at 3 seconds (set after the initial default of 5). -/
theorem C6_read_timeout_witness :
    finalReadTimeout (clientTrace envTimeout3 ⟨false, false⟩ [0, 1]) =
      some 3 := by
  have h := C6_read_timeout envTimeout3 ⟨false, false⟩ 0 1 []
    ⟨[Component.normal "a.txt"], "octet", [("timeout", 3)]⟩ rfl
    (Or.inl ⟨rfl, rfl⟩)
  exact h.trans (by decide)

/-- C7: a WRQ naming a file that already exists (the create-exclusive open
fails with `AlreadyExists`) is answered ERROR(6, "File already exists"),
the handler fails, and the filesystem is left exactly as it was. -/
theorem C7_wrq_existing_file (env : Env) (raw : RawReq) (p : List Component)
    (hparse : env.parse = some raw)
    (hmode : (normalizeReq raw).mode = "octet")
    (hfa : file_allowed env (normalizeReq raw).filename = some p)
    (hex : env.openNewErr p = some OpenErr.alreadyExists) :
    Action.sendError 6 "File already exists" ∈ (handle_wrq env).1 ∧
    (handle_wrq env).2 = false ∧
    ∀ fs : FsState, applyTrace (handle_wrq env).1 fs = fs := by
  have hbody : wrqBody env (init_tftp_options (normalizeReq raw).options).1
      (normalizeReq raw).mode (normalizeReq raw).filename =
      ([Action.openNew p, Action.sendError 6 "File already exists"],
       false) := by
    simp [wrqBody, hmode, hfa, hex]
  rw [handle_wrq_eq env raw hparse, hbody]
  refine ⟨List.mem_append_right _ (by simp), rfl, ?_⟩
  intro fs
  apply applyTrace_eq_self
  intro a ha s
  rcases List.mem_append.mp ha with h | h
  · exact timeoutActs_no_write h s
  · simp at h
    rcases h with rfl | rfl <;> rfl

/-- C7 witness: a WRQ for the existing `exists.bin` is answered
ERROR(6, "File already exists") and no filesystem state changes. -/
theorem C7_wrq_existing_file_witness :
    Action.sendError 6 "File already exists" ∈ (handle_wrq envExists).1 ∧
    (handle_wrq envExists).2 = false := by
  have h := C7_wrq_existing_file envExists
    ⟨[Component.normal "exists.bin"], "octet", []⟩
    [Component.normal "exists.bin"] rfl (by decide) (by decide) rfl
  exact ⟨h.1, h.2.1⟩

/-- C8: a request whose mode is not `octet` under case-insensitive
comparison is answered ERROR(0, "Unsupported mode") by both handlers, which
fail; mode `octet` in any letter case passes the mode check — no such error
is ever sent.  (The case-insensitive comparison lives in the spec-modelled
parser, which hands the handlers the lowercased mode.) -/
theorem C8_mode_check (env : Env) (raw : RawReq)
    (hparse : env.parse = some raw) :
    (lowerStr raw.mode ≠ "octet" →
      (Action.sendError 0 "Unsupported mode" ∈ (handle_wrq env).1 ∧
       (handle_wrq env).2 = false ∧
       Action.sendError 0 "Unsupported mode" ∈ (handle_rrq env).1 ∧
       (handle_rrq env).2 = false)) ∧
    (lowerStr raw.mode = "octet" →
      (Action.sendError 0 "Unsupported mode" ∉ (handle_wrq env).1 ∧
       Action.sendError 0 "Unsupported mode" ∉ (handle_rrq env).1)) := by
  constructor
  · intro hmode
    have hmode2 : (normalizeReq raw).mode ≠ "octet" := hmode
    rw [handle_wrq_eq env raw hparse, handle_rrq_eq env raw hparse,
        wrqBody_mode_bad hmode2, rrqBody_mode_bad hmode2]
    exact ⟨List.mem_append_right _ (by simp), rfl,
           List.mem_append_right _ (by simp), rfl⟩
  · intro hmode
    have hmode2 : (normalizeReq raw).mode = "octet" := hmode
    rw [handle_wrq_eq env raw hparse, handle_rrq_eq env raw hparse, hmode2]
    constructor
    · intro hmem
      rcases List.mem_append.mp hmem with h | h
      · obtain ⟨n, hn⟩ := mem_timeoutActs h
        simp at hn
      · exact wrqBody_no_unsupported h
    · intro hmem
      rcases List.mem_append.mp hmem with h | h
      · obtain ⟨n, hn⟩ := mem_timeoutActs h
        simp at hn
      · exact rrqBody_no_unsupported h

/-- C8 witness: an RRQ in mode `OCTET` is accepted (no mode error), a WRQ
in mode `mail` is answered ERROR(0, "Unsupported mode"). -/
theorem C8_mode_check_witness :
    Action.sendError 0 "Unsupported mode" ∉ (handle_rrq envUpperMode).1 ∧
    Action.sendError 0 "Unsupported mode" ∈ (handle_wrq envMailMode).1 := by
  refine ⟨((C8_mode_check envUpperMode
    ⟨[Component.normal "UP.txt"], "OCTET", []⟩ rfl).2 (by decide)).2, ?_⟩
  exact ((C8_mode_check envMailMode
    ⟨[Component.normal "m.bin"], "mail", []⟩ rfl).1 (by decide)).1

/-- C9: in a successful RRQ open, the options echoed by `ack_options` are
the accepted options with the client's `tsize` value overwritten by the
actual file size: the echoed `tsize` is the file size exactly when the
client sent a `tsize` option, and is absent from the echo otherwise. -/
theorem C9_tsize_overwrite (env : Env) (raw : RawReq) (p : List Component)
    (hparse : env.parse = some raw)
    (hmode : (normalizeReq raw).mode = "octet")
    (hfa : file_allowed env (normalizeReq raw).filename = some p)
    (hopen : env.openReadErr p = none)
    (hmeta : env.metadataOk = true)
    (hisf : env.isFile p = true) :
    Action.ackOptions
        (updateTsize (init_tftp_options (normalizeReq raw).options).1
          (env.fileSize p)) true ∈ (handle_rrq env).1 ∧
    List.lookup "tsize"
        (updateTsize (init_tftp_options (normalizeReq raw).options).1
          (env.fileSize p)) =
      (List.lookup "tsize" (normalizeReq raw).options).map
        (fun _ => env.fileSize p) := by
  constructor
  · rw [handle_rrq_eq env raw hparse]
    apply List.mem_append_right
    cases hsend : env.sendOk with
    | false => simp [rrqBody, hmode, hfa, hopen, hmeta, hisf, hsend]
    | true => simp [rrqBody, hmode, hfa, hopen, hmeta, hisf, hsend]
  · rw [lookup_tsize_updateTsize, lookup_tsize_init]

/-- C9 witness: an RRQ for the 7-byte `a.txt` carrying `tsize 0` echoes
`tsize 7`. -/
theorem C9_tsize_overwrite_witness :
    Action.ackOptions
        (updateTsize (init_tftp_options (normalizeReq
          ⟨[Component.normal "a.txt"], "octet", [("tsize", 0)]⟩).options).1
          (envTsize.fileSize [Component.normal "a.txt"])) true
      ∈ (handle_rrq envTsize).1 ∧
    List.lookup "tsize"
        (updateTsize (init_tftp_options (normalizeReq
          ⟨[Component.normal "a.txt"], "octet", [("tsize", 0)]⟩).options).1
          (envTsize.fileSize [Component.normal "a.txt"])) = some 7 := by
  have h := C9_tsize_overwrite envTsize
    ⟨[Component.normal "a.txt"], "octet", [("tsize", 0)]⟩
    [Component.normal "a.txt"] rfl (by decide) (by decide) rfl rfl rfl
  exact ⟨h.1, h.2.trans (by decide)⟩

/-- C10: a client filename with no final path component (`.`, `..`, any
path whose last component is `..`, the root, or the empty path) is
rejected by `file_allowed` before any file is opened: both handlers answer
ERROR(2, "Permission denied") and fail, no open call happens, and the
filesystem is untouched. -/
theorem C10_no_final_component (env : Env) (raw : RawReq)
    (hparse : env.parse = some raw)
    (hmode : (normalizeReq raw).mode = "octet")
    (hnf : fileNameOf raw.filename = none) :
    file_allowed env raw.filename = none ∧
    (Action.sendError 2 "Permission denied" ∈ (handle_wrq env).1 ∧
     (handle_wrq env).2 = false ∧
     Action.sendError 2 "Permission denied" ∈ (handle_rrq env).1 ∧
     (handle_rrq env).2 = false) ∧
    (∀ a ∈ (handle_wrq env).1, opensOf a = none) ∧
    (∀ a ∈ (handle_rrq env).1, opensOf a = none) ∧
    (∀ fs : FsState, applyTrace (handle_wrq env).1 fs = fs ∧
      applyTrace (handle_rrq env).1 fs = fs) := by
  have hfa : file_allowed env raw.filename = none :=
    file_allowed_none_of_no_fileName env hnf
  have hfa2 : file_allowed env (normalizeReq raw).filename = none := hfa
  rw [handle_wrq_eq env raw hparse, handle_rrq_eq env raw hparse, hmode,
      wrqBody_guard_none hfa2, rrqBody_guard_none hfa2]
  refine ⟨hfa, ⟨List.mem_append_right _ (by simp), rfl,
    List.mem_append_right _ (by simp), rfl⟩, ?_, ?_, ?_⟩
  · intro a ha
    rcases List.mem_append.mp ha with h | h
    · exact opensOf_timeoutActs h
    · simp at h
      subst h
      rfl
  · intro a ha
    rcases List.mem_append.mp ha with h | h
    · exact opensOf_timeoutActs h
    · simp at h
      subst h
      rfl
  · intro fs
    constructor <;>
    · apply applyTrace_eq_self
      intro a ha s
      rcases List.mem_append.mp ha with h | h
      · exact timeoutActs_no_write h s
      · simp at h
        subst h
        rfl

/-- C10 witness: the request `..` is rejected with
ERROR(2, "Permission denied") before any open. -/
theorem C10_no_final_component_witness :
    file_allowed envDotDot [Component.parentDir] = none ∧
    Action.sendError 2 "Permission denied" ∈ (handle_wrq envDotDot).1 := by
  have h := C10_no_final_component envDotDot
    ⟨[Component.parentDir], "octet", []⟩ rfl (by decide) rfl
  exact ⟨h.1, h.2.1.1⟩

end Rtftp
